import Mathlib

/-!
Shallow embedding of the dynamic validation-switching logic of the
`angular-switch-form` repository (`switch-form.component.ts`).

The component keeps a reactive form with five controls and, on every
category (customer-type) change, applies the declared validation rules to
the category-specific controls and clears the rules of the hidden,
non-default controls.  We embed the static tables
(`defaultDisplayForms`, `dynamicDisplayFormsPattern`,
`formValidationManager`), the pure active-field computation
(`_getDynamicDisplayForms` and the `dynamicDisplayForms` computed signal),
and the stateful `_switchValidators` procedure as an explicit
state-transformation on a `FormState`.
-/

namespace SwitchForm

/-- The two customer categories (`type CustomerType = 'individual' | 'corporate'`). -/
inductive CustomerType where
  | individual
  | corporate
deriving DecidableEq, Repr

/-- The field identifiers of the form (`keyof SwitchForm`). -/
inductive Field where
  | customerType
  | name
  | nameKana
  | companyName
  | companyNameKana
deriving DecidableEq, Repr

/-- The only validator used by the component is `Validators.required`. -/
inductive ValidatorFn where
  | required
deriving DecidableEq, Repr

/-- Running a validator on a control's current string value; `true` means the
validator reports an error.  `Validators.required` fails exactly on the empty
string (the controls here are non-nullable string controls). -/
def runValidator : ValidatorFn → String → Bool
  | .required, v => v = ""

/-- An `AbstractControl`, restricted to what the claims need: its current
string value, its current validator list, and its last computed error set
(the validators that failed at the last validity evaluation). -/
structure Control where
  value : String
  validators : List ValidatorFn
  errors : List ValidatorFn
deriving DecidableEq, Repr

/-- `control.clearValidators()`: drop all validators (does not re-evaluate). -/
def Control.clearValidators (c : Control) : Control :=
  { c with validators := [] }

/-- `control.setValidators(vs)`: replace the validator list (does not re-evaluate). -/
def Control.setValidators (c : Control) (vs : List ValidatorFn) : Control :=
  { c with validators := vs }

/-- `control.updateValueAndValidity()`: re-run validity evaluation, i.e.
recompute the error set from the current validators and current value. -/
def Control.updateValueAndValidity (c : Control) : Control :=
  { c with errors := c.validators.filter (fun v => runValidator v c.value) }

/-- The state of `switchForm`: one control per field. -/
def FormState := Field → Control

/-- Replacing the control stored under one field (the effect of mutating
`switchForm.controls[form]`). -/
def FormState.set (s : FormState) (f : Field) (c : Control) : FormState :=
  fun g => if g = f then c else s g

/-- `const defaultDisplayForms = ['customerType']`. -/
def defaultDisplayForms : List Field := [.customerType]

/-- `const dynamicDisplayFormsPattern = { individual: ['name', 'nameKana'],
corporate: ['companyName', 'companyNameKana'] }`. -/
def dynamicDisplayFormsPattern : CustomerType → List Field
  | .individual => [.name, .nameKana]
  | .corporate => [.companyName, .companyNameKana]

/-- `const formValidationManager = { customerType: [], name: [required],
nameKana: [required], companyName: [required], companyNameKana: [required] }`. -/
def formValidationManager : Field → List ValidatorFn
  | .customerType => []
  | .name => [.required]
  | .nameKana => [.required]
  | .companyName => [.required]
  | .companyNameKana => [.required]

/-- `Object.keys(formValidationManager)` in declaration order. -/
def allForms : List Field :=
  [.customerType, .name, .nameKana, .companyName, .companyNameKana]

/-- `private _getDynamicDisplayForms(customerType) { return
dynamicDisplayFormsPattern[customerType]; }`. -/
def getDynamicDisplayForms (customerType : CustomerType) : List Field :=
  dynamicDisplayFormsPattern customerType

/-- The `dynamicDisplayForms` computed signal:
`this._getDynamicDisplayForms(this._currentCustomerType() ?? 'individual')`,
as a function of the current value of the `_currentCustomerType` signal. -/
def dynamicDisplayForms (currentCustomerType : Option CustomerType) : List Field :=
  getDynamicDisplayForms (currentCustomerType.getD .individual)

/-- `private _switchValidators(dynamicDisplayForms)`: first loop applies the
declared validators to every displayed form and re-evaluates it; second loop
clears validators from every form that is neither displayed nor a default
form and re-evaluates it. -/
def switchValidators (dyn : List Field) (s : FormState) : FormState :=
  let s1 := dyn.foldl
    (fun st form =>
      st.set form
        ((((st form).clearValidators).setValidators
            (formValidationManager form)).updateValueAndValidity))
    s
  (allForms.filter
      (fun form => !(decide (form ∈ dyn) || decide (form ∈ defaultDisplayForms)))).foldl
    (fun st form => st.set form (((st form).clearValidators).updateValueAndValidity))
    s1

/-- A category switch as the effect performs it: recompute the displayed
forms for the category and run `_switchValidators` on them. -/
def switchTo (c : CustomerType) (s : FormState) : FormState :=
  switchValidators (getDynamicDisplayForms c) s

/-- The form state as built by the `FormGroup` constructor: `customerType`
holds `'individual'`, the text controls hold `''`, no control has
validators, and no control has errors. -/
def initialForm : FormState := fun f =>
  match f with
  | .customerType => { value := "individual", validators := [], errors := [] }
  | _ => { value := "", validators := [], errors := [] }

/-- The result of the first loop's body on one control: validators replaced
by the declared rules and validity re-evaluated against the unchanged value. -/
def Control.reapplied (c : Control) (f : Field) : Control :=
  { value := c.value
    validators := formValidationManager f
    errors := (formValidationManager f).filter (fun v => runValidator v c.value) }

/-- The result of the second loop's body on one control: validators cleared
and validity re-evaluated (no validators, hence no errors), value unchanged. -/
def Control.clearedUpdated (c : Control) : Control :=
  { value := c.value, validators := [], errors := [] }

/-- A JavaScript-style property lookup on an object seen as a key/value
list: returns `none` when the key is missing. -/
def lookupEntry {α : Type} : List (Field × α) → Field → Option α
  | [], _ => none
  | (k, v) :: t, f => if k = f then some v else lookupEntry t f

/-- `formValidationManager` as the key/value object literal it is in the
source, in declaration order. -/
def formValidationManagerEntries : List (Field × List ValidatorFn) :=
  [(.customerType, []), (.name, [.required]), (.nameKana, [.required]),
   (.companyName, [.required]), (.companyNameKana, [.required])]

/-- `switchForm.controls` as a key/value object with one entry per declared
control. -/
def controlsEntries (s : FormState) : List (Field × Control) :=
  allForms.map (fun f => (f, s f))

/-- `_switchValidators` with every object lookup it performs
(`switchForm.controls[form]` and `formValidationManager[form]`) made
explicit and fallible: the run aborts with `none` as soon as any lookup
misses. -/
def switchValidatorsChecked (dyn : List Field) (s : FormState) : Option FormState :=
  let s1 := dyn.foldl
    (fun acc form => acc.bind (fun st =>
      (lookupEntry (controlsEntries st) form).bind (fun ctrl =>
        (lookupEntry formValidationManagerEntries form).map (fun rules =>
          st.set form ((ctrl.clearValidators.setValidators rules).updateValueAndValidity)))))
    (some s)
  (allForms.filter
      (fun form => !(decide (form ∈ dyn) || decide (form ∈ defaultDisplayForms)))).foldl
    (fun acc form => acc.bind (fun st =>
      (lookupEntry (controlsEntries st) form).map (fun ctrl =>
        st.set form (ctrl.clearValidators.updateValueAndValidity))))
    s1

/-! ### Basic lemmas about the state update and the loop bodies -/

theorem FormState.set_same (s : FormState) (f : Field) (c : Control) :
    (s.set f c) f = c := by
  simp [FormState.set]

theorem FormState.set_ne (s : FormState) (f g : Field) (c : Control) (h : g ≠ f) :
    (s.set f c) g = s g := by
  simp [FormState.set, h]

theorem Control.reapplied_value (c : Control) (f : Field) :
    (c.reapplied f).value = c.value := rfl

theorem Control.reapplied_reapplied (c : Control) (f : Field) :
    (c.reapplied f).reapplied f = c.reapplied f := rfl

theorem Control.clearedUpdated_clearedUpdated (c : Control) :
    c.clearedUpdated.clearedUpdated = c.clearedUpdated := rfl

theorem applyBody_eq (c : Control) (f : Field) :
    ((c.clearValidators.setValidators (formValidationManager f)).updateValueAndValidity)
      = c.reapplied f := rfl

theorem clearBody_eq (c : Control) :
    (c.clearValidators.updateValueAndValidity) = c.clearedUpdated := rfl

/-- A generic description of one pass of a `forEach` loop that rewrites the
control under each visited field with a per-field idempotent function `g`.
A field visited at least once ends at `g` of its incoming control; an
unvisited field is untouched. -/
theorem foldl_setWith (g : Control → Field → Control)
    (hidem : ∀ c f, g (g c f) f = g c f) :
    ∀ (l : List Field) (s : FormState) (f : Field),
      (l.foldl (fun st x => st.set x (g (st x) x)) s) f
        = if f ∈ l then g (s f) f else s f := by
  intro l
  induction l with
  | nil => intro s f; simp
  | cons a t ih =>
    intro s f
    by_cases hfa : f = a
    · subst hfa
      by_cases hft : f ∈ t
      · simp [List.foldl_cons, ih, hft, FormState.set_same, hidem]
      · simp [List.foldl_cons, ih, hft, FormState.set_same]
    · by_cases hft : f ∈ t
      · simp [List.foldl_cons, ih, hft, FormState.set_ne _ _ _ _ hfa, hfa]
      · simp [List.foldl_cons, ih, hft, FormState.set_ne _ _ _ _ hfa, hfa]

/-- Every field identifier is a key of `formValidationManager`. -/
theorem mem_allForms (f : Field) : f ∈ allForms := by
  cases f <;> simp [allForms]

/-- The central characterization of `_switchValidators`: a displayed field
ends with the declared rules applied and validity re-evaluated; an
undisplayed non-default field ends cleared and re-evaluated; a default field
that is not displayed is untouched. -/
theorem switchValidators_get (dyn : List Field) (s : FormState) (f : Field) :
    switchValidators dyn s f
      = if f ∈ dyn then (s f).reapplied f
        else if f ∈ defaultDisplayForms then s f
        else (s f).clearedUpdated := by
  unfold switchValidators
  have happly := foldl_setWith (fun c x => c.reapplied x)
    (fun c x => Control.reapplied_reapplied c x)
  have hclear := foldl_setWith (fun c _ => c.clearedUpdated)
    (fun c _ => Control.clearedUpdated_clearedUpdated c)
  simp only [applyBody_eq, clearBody_eq]
  rw [hclear, happly]
  by_cases hd : f ∈ dyn
  · simp [hd, mem_allForms]
  · by_cases hdef : f ∈ defaultDisplayForms
    · simp [hd, hdef, mem_allForms]
    · simp [hd, hdef, mem_allForms]

/-- `_switchValidators` on a list drawn from the `dynamicDisplayForms`
computed signal never touches the `customerType` control: the signal's list
never contains it and it is a default display form. -/
theorem switchStep_customerType (c : Option CustomerType) (s : FormState) :
    switchValidators (dynamicDisplayForms c) s Field.customerType
      = s Field.customerType := by
  rw [switchValidators_get]
  rcases c with _ | ct
  · simp [dynamicDisplayForms, getDynamicDisplayForms, dynamicDisplayFormsPattern,
      defaultDisplayForms]
  · cases ct <;>
      simp [dynamicDisplayForms, getDynamicDisplayForms, dynamicDisplayFormsPattern,
        defaultDisplayForms]

/-- Any sequence of category switches (including the `null` fallback) leaves
the `customerType` control exactly as it started. -/
theorem foldl_switch_customerType (cs : List (Option CustomerType)) :
    ∀ s : FormState,
      (cs.foldl (fun st c => switchValidators (dynamicDisplayForms c) st) s)
          Field.customerType
        = s Field.customerType := by
  induction cs with
  | nil => intro s; rfl
  | cons c t ih =>
    intro s
    rw [List.foldl_cons, ih, switchStep_customerType]

/-! ### Claims -/

/-- Claim C1, counterexample: the active-field computation does not return
the union `DefaultFields ∪ FieldRegistry[c]` — the default field
`customerType` is in `defaultDisplayForms` but absent from
`_getDynamicDisplayForms('individual')`. -/
theorem C1_counterexample :
    Field.customerType ∈ defaultDisplayForms ∧
    Field.customerType ∉ getDynamicDisplayForms CustomerType.individual := by
  decide

/-- Claim C1 (amended): for every declared category `c` the active-field
computation returns exactly `FieldRegistry[c]` — the category-specific
fields only, with no extras and no omissions, the default field
`customerType` not included; the union with `DefaultFields` is realized
downstream because `_switchValidators` leaves the default field's control
untouched. -/
theorem C1_amended_thm (c : CustomerType) :
    (∀ f : Field, f ∈ getDynamicDisplayForms c ↔ f ∈ dynamicDisplayFormsPattern c) ∧
    Field.customerType ∉ getDynamicDisplayForms c ∧
    ∀ s : FormState,
      switchValidators (getDynamicDisplayForms c) s Field.customerType
        = s Field.customerType := by
  refine ⟨fun f => Iff.rfl, ?_, ?_⟩
  · cases c <;> decide
  · intro s
    rw [switchValidators_get]
    cases c <;>
      simp [getDynamicDisplayForms, dynamicDisplayFormsPattern, defaultDisplayForms]

/-- Claim C2: after `_switchValidators(activeFields)` runs, every field `f`
in `activeFields` carries exactly `formValidationManager[f]` as validators
with its errors re-evaluated against its current value, and every field `g`
neither in `activeFields` nor in `defaultDisplayForms` has its validators
cleared entirely with its errors re-evaluated (hence empty). -/
theorem C2_thm (dyn : List Field) (s : FormState) (f g : Field)
    (hf : f ∈ dyn) (hg1 : g ∉ dyn) (hg2 : g ∉ defaultDisplayForms) :
    (switchValidators dyn s f).validators = formValidationManager f ∧
    (switchValidators dyn s f).errors
      = (formValidationManager f).filter (fun v => runValidator v (s f).value) ∧
    (switchValidators dyn s g).validators = [] ∧
    (switchValidators dyn s g).errors = [] := by
  rw [switchValidators_get dyn s f, switchValidators_get dyn s g]
  simp [hf, hg1, hg2, Control.reapplied, Control.clearedUpdated]

theorem C2_witness :
    Field.name ∈ [Field.name, Field.nameKana] ∧
    Field.companyName ∉ [Field.name, Field.nameKana] ∧
    Field.companyName ∉ defaultDisplayForms ∧
    ((switchValidators [Field.name, Field.nameKana] initialForm Field.name).validators
        = formValidationManager Field.name ∧
      (switchValidators [Field.name, Field.nameKana] initialForm Field.name).errors
        = (formValidationManager Field.name).filter
            (fun v => runValidator v (initialForm Field.name).value) ∧
      (switchValidators [Field.name, Field.nameKana] initialForm Field.companyName).validators
        = [] ∧
      (switchValidators [Field.name, Field.nameKana] initialForm Field.companyName).errors
        = []) :=
  ⟨by decide, by decide, by decide,
    C2_thm [Field.name, Field.nameKana] initialForm Field.name Field.companyName
      (by decide) (by decide) (by decide)⟩

/-- Claim C3: `_switchValidators` is idempotent — for every active-field
list and every form state, running it twice yields, field by field, the same
control (validator list, value and validity state) as running it once. -/
theorem C3_thm (dyn : List Field) (s : FormState) (f : Field) :
    switchValidators dyn (switchValidators dyn s) f = switchValidators dyn s f := by
  simp only [switchValidators_get]
  split_ifs <;>
    simp [Control.reapplied_reapplied, Control.clearedUpdated_clearedUpdated]

/-- Claim C8 (frame): `_switchValidators` never changes any control's
current string value. -/
theorem C8_thm (dyn : List Field) (s : FormState) (f : Field) :
    (switchValidators dyn s f).value = (s f).value := by
  rw [switchValidators_get]
  split_ifs <;> rfl

/-- Claim C9 (tie-break): a field in both `defaultDisplayForms` and the
active list is treated as active — its declared rules are applied (it ends
as the rule re-application of its incoming control, not cleared), and the
re-assignment is idempotent: a second run leaves its control unchanged. -/
theorem C9_thm (dyn : List Field) (s : FormState) (f : Field)
    (h1 : f ∈ dyn) (h2 : f ∈ defaultDisplayForms) :
    (switchValidators dyn s f).validators = formValidationManager f ∧
    switchValidators dyn s f = (s f).reapplied f ∧
    switchValidators dyn (switchValidators dyn s) f = switchValidators dyn s f := by
  have hget := switchValidators_get dyn s f
  rw [if_pos h1] at hget
  refine ⟨?_, hget, ?_⟩
  · rw [hget]; rfl
  · rw [switchValidators_get dyn (switchValidators dyn s) f, if_pos h1, hget,
      Control.reapplied_reapplied]

theorem C9_witness :
    Field.customerType ∈ [Field.customerType, Field.name] ∧
    Field.customerType ∈ defaultDisplayForms ∧
    ((switchValidators [Field.customerType, Field.name] initialForm
          Field.customerType).validators
        = formValidationManager Field.customerType ∧
      switchValidators [Field.customerType, Field.name] initialForm Field.customerType
        = (initialForm Field.customerType).reapplied Field.customerType ∧
      switchValidators [Field.customerType, Field.name]
          (switchValidators [Field.customerType, Field.name] initialForm)
          Field.customerType
        = switchValidators [Field.customerType, Field.name] initialForm
            Field.customerType) :=
  ⟨by decide, by decide,
    C9_thm [Field.customerType, Field.name] initialForm Field.customerType
      (by decide) (by decide)⟩

/-- Claim C10 (frame): a default field that is not in the active list passed
to `_switchValidators` is untouched — its control after the call is exactly
its control before the call. -/
theorem C10_thm (dyn : List Field) (s : FormState) (f : Field)
    (h1 : f ∈ defaultDisplayForms) (h2 : f ∉ dyn) :
    switchValidators dyn s f = s f := by
  rw [switchValidators_get]
  simp [h1, h2]

theorem C10_witness :
    Field.customerType ∈ defaultDisplayForms ∧
    Field.customerType ∉ getDynamicDisplayForms CustomerType.individual ∧
    switchValidators (getDynamicDisplayForms CustomerType.individual) initialForm
        Field.customerType
      = initialForm Field.customerType :=
  ⟨by decide, by decide,
    C10_thm (getDynamicDisplayForms CustomerType.individual) initialForm
      Field.customerType (by decide) (by decide)⟩

/-- A full round trip individual → corporate → individual ends, control by
control, in exactly the state established by the first switch to
individual. -/
theorem switchTo_roundtrip (s : FormState) (f : Field) :
    switchTo .individual (switchTo .corporate (switchTo .individual s)) f
      = switchTo .individual s f := by
  cases f <;>
    simp [switchTo, switchValidators_get, getDynamicDisplayForms,
      dynamicDisplayFormsPattern, defaultDisplayForms, Control.reapplied,
      Control.clearedUpdated, formValidationManager]

/-- Claim C4 (round trip): from an established individual state, switching
to corporate clears the rules and errors on `name`/`nameKana` and installs
the required rule on `companyName`/`companyNameKana`; switching back to
individual restores the required rules on `name`/`nameKana`, clears the
rules on `companyName`/`companyNameKana`, and returns every control to
exactly its state before the first switch. -/
theorem C4_thm (s : FormState) :
    (switchTo .corporate (switchTo .individual s) Field.name).validators = [] ∧
    (switchTo .corporate (switchTo .individual s) Field.name).errors = [] ∧
    (switchTo .corporate (switchTo .individual s) Field.nameKana).validators = [] ∧
    (switchTo .corporate (switchTo .individual s) Field.nameKana).errors = [] ∧
    (switchTo .corporate (switchTo .individual s) Field.companyName).validators
      = [.required] ∧
    (switchTo .corporate (switchTo .individual s) Field.companyNameKana).validators
      = [.required] ∧
    (switchTo .individual (switchTo .corporate (switchTo .individual s))
        Field.name).validators = [.required] ∧
    (switchTo .individual (switchTo .corporate (switchTo .individual s))
        Field.nameKana).validators = [.required] ∧
    (switchTo .individual (switchTo .corporate (switchTo .individual s))
        Field.companyName).validators = [] ∧
    (switchTo .individual (switchTo .corporate (switchTo .individual s))
        Field.companyNameKana).validators = [] ∧
    ∀ f : Field,
      switchTo .individual (switchTo .corporate (switchTo .individual s)) f
        = switchTo .individual s f := by
  refine ⟨?_, ?_, ?_, ?_, ?_, ?_, ?_, ?_, ?_, ?_, fun f => switchTo_roundtrip s f⟩ <;>
    simp [switchTo, switchValidators_get, getDynamicDisplayForms,
      dynamicDisplayFormsPattern, defaultDisplayForms, Control.reapplied,
      Control.clearedUpdated, formValidationManager]

/-- Claim C5 (invariant): starting from the constructed form, after any
sequence of category switches and validator applications (each one running
`_switchValidators` on the active-field list computed from the then-current
signal value, `null` included), the `customerType` control's validator rule
list is empty — `customerType` is never required-validated. -/
theorem C5_thm (cs : List (Option CustomerType)) :
    ((cs.foldl (fun st c => switchValidators (dynamicDisplayForms c) st) initialForm)
        Field.customerType).validators = [] := by
  rw [foldl_switch_customerType]
  rfl

/-- Claim C6: when the `_currentCustomerType` signal holds `null`, the
`dynamicDisplayForms` computation falls back to the default category
`individual` — it yields exactly the result for category `individual`. -/
theorem C6_thm :
    dynamicDisplayForms none = dynamicDisplayForms (some CustomerType.individual) ∧
    dynamicDisplayForms none = getDynamicDisplayForms CustomerType.individual ∧
    dynamicDisplayForms none = dynamicDisplayFormsPattern CustomerType.individual :=
  ⟨rfl, rfl, rfl⟩

/-- Every lookup into `switchForm.controls` at a declared field identifier
succeeds and returns that field's control. -/
theorem lookupEntry_controls (s : FormState) (f : Field) :
    lookupEntry (controlsEntries s) f = some (s f) := by
  cases f <;> rfl

/-- Every lookup into `formValidationManager` at a declared field identifier
succeeds and returns the declared rule list. -/
theorem lookupEntry_fvm (f : Field) :
    lookupEntry formValidationManagerEntries f = some (formValidationManager f) := by
  cases f <;> rfl

/-- The fallible apply loop never aborts and computes the same fold as the
total apply loop. -/
theorem checkedApplyLoop (l : List Field) :
    ∀ s : FormState,
      l.foldl
          (fun acc form => acc.bind (fun st =>
            (lookupEntry (controlsEntries st) form).bind (fun ctrl =>
              (lookupEntry formValidationManagerEntries form).map (fun rules =>
                st.set form
                  ((ctrl.clearValidators.setValidators rules).updateValueAndValidity)))))
          (some s)
        = some (l.foldl
            (fun st form =>
              st.set form
                ((((st form).clearValidators).setValidators
                    (formValidationManager form)).updateValueAndValidity))
            s) := by
  induction l with
  | nil => intro s; rfl
  | cons a t ih =>
    intro s
    rw [List.foldl_cons, List.foldl_cons]
    rw [show ((some s).bind (fun st =>
        (lookupEntry (controlsEntries st) a).bind (fun ctrl =>
          (lookupEntry formValidationManagerEntries a).map (fun rules =>
            st.set a ((ctrl.clearValidators.setValidators rules).updateValueAndValidity)))))
      = some (s.set a ((((s a).clearValidators).setValidators
          (formValidationManager a)).updateValueAndValidity)) from by
        rw [Option.some_bind, lookupEntry_controls, Option.some_bind, lookupEntry_fvm]
        rfl]
    exact ih _

/-- The fallible clear loop never aborts and computes the same fold as the
total clear loop. -/
theorem checkedClearLoop (l : List Field) :
    ∀ s : FormState,
      l.foldl
          (fun acc form => acc.bind (fun st =>
            (lookupEntry (controlsEntries st) form).map (fun ctrl =>
              st.set form (ctrl.clearValidators.updateValueAndValidity))))
          (some s)
        = some (l.foldl
            (fun st form =>
              st.set form (((st form).clearValidators).updateValueAndValidity))
            s) := by
  induction l with
  | nil => intro s; rfl
  | cons a t ih =>
    intro s
    rw [List.foldl_cons, List.foldl_cons]
    rw [show ((some s).bind (fun st =>
        (lookupEntry (controlsEntries st) a).map (fun ctrl =>
          st.set a (ctrl.clearValidators.updateValueAndValidity))))
      = some (s.set a (((s a).clearValidators).updateValueAndValidity)) from by
        rw [Option.some_bind, lookupEntry_controls]
        rfl]
    exact ih _

/-- Claim C7 (totality): for every active-field list drawn from the closed
field-identifier domain and every form state, the lookup-checked run of
`_switchValidators` never hits its failure branch: it returns `some` of
exactly the state the total function computes — every
`switchForm.controls[form]` and `formValidationManager[form]` lookup
succeeds and the operation is deterministic and total. -/
theorem C7_thm (dyn : List Field) (s : FormState) :
    switchValidatorsChecked dyn s = some (switchValidators dyn s) := by
  unfold switchValidatorsChecked switchValidators
  rw [checkedApplyLoop, checkedClearLoop]

end SwitchForm
